import Mathlib

/-!
# Verification of the RESP codec and replication engine

A shallow embedding of the Rust sources of a small Redis-compatible
key/value server (`src/tokenizer.rs`, `src/commands.rs`, `src/main.rs`).

Modelling conventions:
* Rust byte buffers (`&[u8]`, `Vec<u8>`) are `List Nat`; the UTF-8 validity
  of a Rust `String` becomes an executable `utf8Valid` check, and a Rust
  `String` value is represented by the list of its UTF-8 bytes.
* `anyhow::Result` becomes `Except` with a string message; the distinct
  messages produced by library errors (UTF-8 decoding, integer parsing) are
  collapsed to one representative message each, since only the success /
  failure distinction is ever inspected by the callers.
* A Rust `unimplemented!()` panic is modelled as the distinguished error
  value `panicked`, so that a panic is observably different from a
  returned `Err`.
* Machine integers are `Nat` / `Int` with explicit range checks exactly
  where the Rust code performs a fallible conversion (`parse::<u64>()`,
  `parse::<i64>()`, ...).
* `str::to_lowercase` is modelled as ASCII lowercasing; every keyword the
  program compares against is ASCII.
-/

/-- The bytes of a (pure ASCII, in this development) string literal. -/
def strBytes (s : String) : List Nat := s.data.map (fun c => c.toNat)

/-- ASCII lowercasing, byte by byte.  Models `str::to_lowercase` /
`eq_ignore_ascii_case` on the ASCII keywords used by the program. -/
def asciiLower (l : List Nat) : List Nat :=
  l.map (fun b => if 65 ≤ b ∧ b ≤ 90 then b + 32 else b)

/-- Accumulating decimal parser: consumes ASCII digit bytes, failing on the
first non-digit.  Models the digit loop of Rust's integer `FromStr`. -/
def parseDigitsAux : Nat → List Nat → Option Nat
  | acc, [] => some acc
  | acc, b :: rest =>
    if 48 ≤ b ∧ b ≤ 57 then parseDigitsAux (10 * acc + (b - 48)) rest else none

/-- Decimal parse of a non-empty all-digit byte string. -/
def parseDigits : List Nat → Option Nat
  | [] => none
  | b :: rest => parseDigitsAux 0 (b :: rest)

/-- Rust `parse::<uN>()`: optional leading `+`, then digits, with an
upper-bound (overflow) check; `bound` is `2 ^ N`. -/
def parseUIntB (bound : Nat) (l : List Nat) : Option Nat :=
  match l with
  | [] => none
  | b :: rest =>
    let ds := if b = 43 then rest else b :: rest
    match parseDigits ds with
    | some n => if n < bound then some n else none
    | none => none

/-- Rust `parse::<iN>()`: optional sign, digits, two's-complement range
check; `bound` is `2 ^ (N - 1)`. -/
def parseIntB (bound : Nat) (l : List Nat) : Option Int :=
  match l with
  | [] => none
  | b :: rest =>
    if b = 45 then
      match parseDigits rest with
      | some n => if n ≤ bound then some (-(n : Int)) else none
      | none => none
    else
      let ds := if b = 43 then rest else b :: rest
      match parseDigits ds with
      | some n => if n < bound then some ((n : Int)) else none
      | none => none

/-- `parse::<u64>()`; also `parse::<usize>()` (the target is 64-bit). -/
def parse_u64 : List Nat → Option Nat := parseUIntB (2 ^ 64)

/-- `parse::<u16>()`. -/
def parse_u16 : List Nat → Option Nat := parseUIntB (2 ^ 16)

/-- `parse::<i64>()`. -/
def parse_i64 : List Nat → Option Int := parseIntB (2 ^ 63)

/-- `parse::<i32>()`. -/
def parse_i32 : List Nat → Option Int := parseIntB (2 ^ 31)

/-- Big-endian decimal digit bytes of `n`, empty for `0`; the fuel argument
makes the recursion structural and is always given as at least `n + 1`. -/
def natToBytesAux : Nat → Nat → List Nat
  | 0, _ => []
  | f + 1, n => if n = 0 then [] else natToBytesAux f (n / 10) ++ [n % 10 + 48]

/-- The bytes of Rust's `n.to_string()` for an unsigned integer. -/
def natToBytes (n : Nat) : List Nat :=
  if n = 0 then [48] else natToBytesAux (n + 1) n

/-- The bytes of Rust's `i.to_string()` for a signed integer. -/
def intToBytes (i : Int) : List Nat :=
  if i < 0 then 45 :: natToBytes i.natAbs else natToBytes i.toNat

/- ### Lemmas about decimal printing and parsing -/

theorem parseDigitsAux_append (l1 l2 : List Nat) : ∀ acc,
    parseDigitsAux acc (l1 ++ l2) =
      match parseDigitsAux acc l1 with
      | some a => parseDigitsAux a l2
      | none => none := by
  induction l1 with
  | nil => intro acc; rfl
  | cons b rest ih =>
    intro acc
    by_cases h : 48 ≤ b ∧ b ≤ 57
    · simp only [List.cons_append, parseDigitsAux, if_pos h]
      exact ih _
    · simp only [List.cons_append, parseDigitsAux, if_neg h]

theorem natToBytesAux_digits {f n : Nat} :
    ∀ b ∈ natToBytesAux f n, 48 ≤ b ∧ b ≤ 57 := by
  induction f generalizing n with
  | zero => simp [natToBytesAux]
  | succ f ih =>
    intro b hb
    by_cases h : n = 0
    · simp [natToBytesAux, h] at hb
    · simp only [natToBytesAux, if_neg h, List.mem_append, List.mem_singleton] at hb
      rcases hb with hb | hb
      · exact ih b hb
      · subst hb
        constructor
        · omega
        · have := Nat.mod_lt n (show 0 < 10 by omega)
          omega

theorem natToBytes_digits {n : Nat} :
    ∀ b ∈ natToBytes n, 48 ≤ b ∧ b ≤ 57 := by
  intro b hb
  unfold natToBytes at hb
  by_cases h : n = 0
  · simp [h] at hb
    omega
  · simp only [if_neg h] at hb
    exact natToBytesAux_digits b hb

theorem natToBytesAux_ne_nil {f n : Nat} (hn : 0 < n) (hf : n < f) :
    natToBytesAux f n ≠ [] := by
  cases f with
  | zero => omega
  | succ f =>
    simp only [natToBytesAux, if_neg (by omega : ¬ n = 0)]
    simp

theorem natToBytes_ne_nil (n : Nat) : natToBytes n ≠ [] := by
  unfold natToBytes
  by_cases h : n = 0
  · simp [h]
  · simp only [if_neg h]
    exact natToBytesAux_ne_nil (by omega) (by omega)

theorem parseDigitsAux_natToBytesAux {f n : Nat} (hf : n < f) : ∀ acc,
    parseDigitsAux acc (natToBytesAux f n) =
      some (acc * 10 ^ (natToBytesAux f n).length + n) := by
  induction f generalizing n with
  | zero => omega
  | succ f ih =>
    intro acc
    by_cases h : n = 0
    · simp [natToBytesAux, h, parseDigitsAux]
    · simp only [natToBytesAux, if_neg h]
      have hlt : n / 10 < f := by omega
      rw [parseDigitsAux_append, ih hlt acc]
      have hd : 48 ≤ n % 10 + 48 ∧ n % 10 + 48 ≤ 57 := by
        have := Nat.mod_lt n (show 0 < 10 by omega)
        omega
      simp only [parseDigitsAux, if_pos hd, List.length_append,
        List.length_singleton]
      congr 1
      have h10 : n % 10 + 48 - 48 = n % 10 := by omega
      rw [h10, pow_succ]
      have := Nat.div_add_mod n 10
      ring_nf
      omega

theorem parseDigits_natToBytes (n : Nat) :
    parseDigits (natToBytes n) = some n := by
  by_cases h : n = 0
  · subst h; rfl
  · have hne := natToBytes_ne_nil n
    unfold natToBytes at hne ⊢
    simp only [if_neg h] at hne ⊢
    obtain ⟨b, rest, hcons⟩ : ∃ b rest, natToBytesAux (n + 1) n = b :: rest := by
      cases hx : natToBytesAux (n + 1) n with
      | nil => exact absurd hx hne
      | cons b rest => exact ⟨b, rest, rfl⟩
    rw [hcons]
    have := parseDigitsAux_natToBytesAux (show n < n + 1 by omega) 0
    rw [hcons] at this
    simpa using this

theorem parseUIntB_natToBytes {bound n : Nat} (h : n < bound) :
    parseUIntB bound (natToBytes n) = some n := by
  obtain ⟨b, rest, hcons⟩ : ∃ b rest, natToBytes n = b :: rest := by
    cases hx : natToBytes n with
    | nil => exact absurd hx (natToBytes_ne_nil n)
    | cons b rest => exact ⟨b, rest, rfl⟩
  have hd : 48 ≤ b ∧ b ≤ 57 := by
    apply natToBytes_digits
    rw [hcons]; exact List.mem_cons_self b rest
  have hpd := parseDigits_natToBytes n
  rw [hcons] at hpd
  simp only [parseUIntB, hcons, if_neg (show ¬ b = 43 by omega), hpd, if_pos h]

theorem parseIntB_intToBytes (bound : Nat) (i : Int)
    (h1 : -(bound : Int) ≤ i) (h2 : i < bound) :
    parseIntB bound (intToBytes i) = some i := by
  unfold intToBytes
  by_cases hneg : i < 0
  · have hcast : ((i.natAbs : Int)) = -i := by omega
    have hle : i.natAbs ≤ bound := by omega
    have hval : -((i.natAbs : Int)) = i := by omega
    simp [if_pos hneg, parseIntB, parseDigits_natToBytes, hle, hval]
    rw [abs_of_neg hneg]
    ring
  · simp only [if_neg hneg]
    obtain ⟨b, rest, hcons⟩ : ∃ b rest, natToBytes i.toNat = b :: rest := by
      cases hx : natToBytes i.toNat with
      | nil => exact absurd hx (natToBytes_ne_nil _)
      | cons b rest => exact ⟨b, rest, rfl⟩
    have hd : 48 ≤ b ∧ b ≤ 57 := by
      apply natToBytes_digits
      rw [hcons]; exact List.mem_cons_self b rest
    have hpd := parseDigits_natToBytes i.toNat
    rw [hcons] at hpd
    simp only [parseIntB, hcons, if_neg (show ¬ b = 45 by omega),
      if_neg (show ¬ b = 43 by omega), hpd]
    have hlt : i.toNat < bound := by omega
    simp only [if_pos hlt]
    congr 1
    omega

theorem natToBytes_not13 {n : Nat} : ∀ b ∈ natToBytes n, b ≠ 13 := by
  intro b hb
  have := natToBytes_digits b hb
  omega

theorem intToBytes_not13 {i : Int} : ∀ b ∈ intToBytes i, b ≠ 13 := by
  intro b hb
  unfold intToBytes at hb
  by_cases h : i < 0
  · simp only [if_pos h, List.mem_cons] at hb
    rcases hb with hb | hb
    · omega
    · exact natToBytes_not13 b hb
  · simp only [if_neg h] at hb
    exact natToBytes_not13 b hb

/- ### UTF-8 validation (Rust `String::from_utf8`) -/

/-- Is `b` a UTF-8 continuation byte (`0x80..=0xBF`)? -/
def utf8Cont (b : Nat) : Bool := 128 ≤ b && b ≤ 191

/-- Executable UTF-8 validity check over a byte list, mirroring the checks
performed by Rust's `String::from_utf8` (rejecting overlong encodings,
surrogates and out-of-range code points). -/
def utf8Valid : List Nat → Bool
  | [] => true
  | b :: rest =>
    if b ≤ 127 then utf8Valid rest
    else if b < 194 then false
    else if b ≤ 223 then
      match rest with
      | c1 :: r => utf8Cont c1 && utf8Valid r
      | [] => false
    else if b ≤ 239 then
      match rest with
      | c1 :: c2 :: r =>
        (if b = 224 then 160 ≤ c1 && c1 ≤ 191
         else if b = 237 then 128 ≤ c1 && c1 ≤ 159
         else utf8Cont c1) && utf8Cont c2 && utf8Valid r
      | _ => false
    else if b ≤ 244 then
      match rest with
      | c1 :: c2 :: c3 :: r =>
        (if b = 240 then 144 ≤ c1 && c1 ≤ 191
         else if b = 244 then 128 ≤ c1 && c1 ≤ 143
         else utf8Cont c1) && utf8Cont c2 && utf8Cont c3 && utf8Valid r
      | _ => false
    else false

/-- `String::from_utf8` on a byte buffer: the same bytes on success. -/
def fromUtf8 (l : List Nat) : Option (List Nat) :=
  if utf8Valid l then some l else none

theorem utf8Valid_cons_ascii {b : Nat} (rest : List Nat) (hb : b ≤ 127) :
    utf8Valid (b :: rest) = utf8Valid rest := by
  match rest with
  | [] =>
    show (if b ≤ 127 then utf8Valid [] else _) = utf8Valid []
    rw [if_pos hb]
  | [c1] =>
    show (if b ≤ 127 then utf8Valid [c1] else _) = utf8Valid [c1]
    rw [if_pos hb]
  | [c1, c2] =>
    show (if b ≤ 127 then utf8Valid [c1, c2] else _) = utf8Valid [c1, c2]
    rw [if_pos hb]
  | c1 :: c2 :: c3 :: r =>
    show (if b ≤ 127 then utf8Valid (c1 :: c2 :: c3 :: r) else _) =
      utf8Valid (c1 :: c2 :: c3 :: r)
    rw [if_pos hb]

theorem utf8Valid_of_ascii {l : List Nat} (h : ∀ b ∈ l, b ≤ 127) :
    utf8Valid l = true := by
  induction l with
  | nil => rfl
  | cons b rest ih =>
    have hb : b ≤ 127 := h b (List.mem_cons_self b rest)
    rw [utf8Valid_cons_ascii rest hb]
    exact ih (fun x hx => h x (List.mem_cons_of_mem b hx))

theorem fromUtf8_of_valid {l : List Nat} (h : utf8Valid l = true) :
    fromUtf8 l = some l := by
  simp [fromUtf8, h]

/- ### Line splitting (`read_next_line` in `src/tokenizer.rs`) -/

/-- Index of the first adjacent CR LF pair; models
`buffer.windows(2).position(|bytes| bytes == b"\r\n")`. -/
def findCrlf : List Nat → Option Nat
  | [] => none
  | [_] => none
  | a :: b :: rest =>
    if a = 13 ∧ b = 10 then some 0 else (findCrlf (b :: rest)).map (· + 1)

/-- `true` iff the list contains no adjacent CR LF pair. -/
def crlfFree : List Nat → Bool
  | [] => true
  | [_] => true
  | a :: b :: rest => !(a = 13 ∧ b = 10 : Bool) && crlfFree (b :: rest)

/-- `read_next_line` (src/tokenizer.rs:97-105): split the buffer at the
first CR LF; when none exists the whole buffer is the line and the
remainder is empty.  Returns `(remainder, line)` like the Rust function;
the two `ok_or` checks can never fire since both indices are in bounds. -/
def read_next_line (buffer : List Nat) : List Nat × List Nat :=
  match findCrlf buffer with
  | some i => (buffer.drop (i + 2), buffer.take i)
  | none => ([], buffer)

theorem crlfFree_of_not13 {l : List Nat} (h : ∀ b ∈ l, b ≠ 13) :
    crlfFree l = true := by
  induction l with
  | nil => rfl
  | cons a rest ih =>
    cases rest with
    | nil => rfl
    | cons b r =>
      have ha : a ≠ 13 := h a (by simp)
      simp only [crlfFree, Bool.and_eq_true, Bool.not_eq_true']
      constructor
      · simp [ha]
      · exact ih (fun x hx => h x (List.mem_cons_of_mem a hx))

theorem crlfFree_cons {a : Nat} {l : List Nat} (ha : a ≠ 13)
    (hl : crlfFree l = true) : crlfFree (a :: l) = true := by
  cases l with
  | nil => rfl
  | cons b r =>
    simp only [crlfFree, Bool.and_eq_true, Bool.not_eq_true']
    exact ⟨by simp [ha], hl⟩

theorem findCrlf_cons2 (a b : Nat) (rest : List Nat) :
    findCrlf (a :: b :: rest) =
      if a = 13 ∧ b = 10 then some 0 else (findCrlf (b :: rest)).map (· + 1) :=
  rfl

theorem findCrlf_append {a : List Nat} (b : List Nat)
    (h : crlfFree a = true) :
    findCrlf (a ++ 13 :: 10 :: b) = some a.length := by
  induction a with
  | nil =>
    simp only [List.nil_append, findCrlf_cons2]
    simp
  | cons x a' ih =>
    cases a' with
    | nil =>
      have hx : ¬ (x = 13 ∧ 13 = 10) := by omega
      simp only [List.cons_append, List.nil_append, findCrlf_cons2, if_neg hx]
      simp [findCrlf_cons2]
    | cons y a'' =>
      simp only [crlfFree, Bool.and_eq_true, Bool.not_eq_true'] at h
      obtain ⟨hxy, h'⟩ := h
      have hxy' : ¬ (x = 13 ∧ y = 10) := by
        intro hc
        simp [hc.1, hc.2] at hxy
      have ih' := ih h'
      simp only [List.cons_append] at ih' ⊢
      rw [findCrlf_cons2, if_neg hxy', ih']
      simp

theorem read_next_line_append (a b : List Nat)
    (h : crlfFree a = true) :
    read_next_line (a ++ 13 :: 10 :: b) = (b, a) := by
  simp only [read_next_line, findCrlf_append b h, Prod.mk.injEq]
  constructor
  · simp [List.drop_append]
  · simp

/- ### The frame type (`Resp` in `src/tokenizer.rs`) -/

/-- The RESP frame type (src/tokenizer.rs:3-11).  Rust `String` fields are
represented by their UTF-8 bytes. -/
inductive Resp where
  | array : List Resp → Resp
  | bulkString : List Nat → Resp
  | simpleString : List Nat → Resp
  | integer : Int → Resp
  | nullBulkString : Resp
  | empty : Resp

mutual
/-- `Resp::encode_to_bytes` (src/tokenizer.rs:31-53): `[b"*", len, b"\r\n"]
.concat()` plus the concatenated children for arrays, and the analogous
byte concatenations for the other variants. -/
def encode_to_bytes : Resp → List Nat
  | .array vs => 42 :: (natToBytes vs.length ++ 13 :: 10 :: encodeList vs)
  | .bulkString s => 36 :: (natToBytes s.length ++ 13 :: 10 :: (s ++ [13, 10]))
  | .simpleString s => 43 :: (s ++ [13, 10])
  | .integer n => 58 :: (intToBytes n ++ [13, 10])
  | .nullBulkString => [36, 45, 49, 13, 10]
  | .empty => []
/-- The fold `encoded = [encoded, val.encode_to_bytes()].concat()` over an
array's children. -/
def encodeList : List Resp → List Nat
  | [] => []
  | v :: vs => encode_to_bytes v ++ encodeList vs
end

mutual
/-- `Resp::encode_to_string` (src/tokenizer.rs:14-29), seen through the
UTF-8 bytes of the `String` it builds with `format!` and `+=`. -/
def encode_to_string : Resp → List Nat
  | .array vs => (42 :: (natToBytes vs.length ++ [13, 10])) ++ encodeStringList vs
  | .bulkString s => (36 :: (natToBytes s.length ++ [13, 10])) ++ s ++ [13, 10]
  | .simpleString s => (43 :: s) ++ [13, 10]
  | .integer n => (58 :: intToBytes n) ++ [13, 10]
  | .nullBulkString => [36, 45, 49, 13, 10]
  | .empty => []
/-- The `encoded += &val.encode_to_string()` loop over an array's children. -/
def encodeStringList : List Resp → List Nat
  | [] => []
  | v :: vs => encode_to_string v ++ encodeStringList vs
end

mutual
/-- Structural size of a frame, used as a fuel bound for the decoder. -/
def respSize : Resp → Nat
  | .array vs => 2 + respSizeList vs
  | .bulkString _ => 1
  | .simpleString _ => 1
  | .integer _ => 1
  | .nullBulkString => 1
  | .empty => 1
/-- Total size of a list of frames. -/
def respSizeList : List Resp → Nat
  | [] => 0
  | v :: vs => respSize v + respSizeList vs
end

/-- A well-formed string payload: the invariant a Rust `String` value always
has (valid UTF-8, length representable in `usize`), plus freedom from
embedded CR LF pairs. -/
def goodString (s : List Nat) : Bool :=
  utf8Valid s && crlfFree s && decide (s.length < 2 ^ 64)

mutual
/-- Frames built only from Array / BulkString / SimpleString / Integer
whose strings are well formed and CR-LF-free, and whose integers are in
`i64` range (the range the Rust `i64` field guarantees). -/
def goodResp : Resp → Bool
  | .array vs => decide (vs.length < 2 ^ 64) && goodList vs
  | .bulkString s => goodString s
  | .simpleString s => goodString s
  | .integer n => decide (-(2 ^ 63 : Int) ≤ n) && decide (n < 2 ^ 63)
  | .nullBulkString => false
  | .empty => false
/-- `goodResp` for every element of a list. -/
def goodList : List Resp → Bool
  | [] => true
  | v :: vs => goodResp v && goodList vs
end

theorem respSize_pos (v : Resp) : 1 ≤ respSize v := by
  cases v <;> (simp [respSize]; try omega)

theorem respSizeList_cons (v : Resp) (vs : List Resp) :
    respSizeList (v :: vs) = respSize v + respSizeList vs := rfl

theorem goodList_cons {v : Resp} {vs : List Resp}
    (h : goodList (v :: vs) = true) : goodResp v = true ∧ goodList vs = true := by
  simpa [goodList, Bool.and_eq_true] using h

example : encode_to_bytes (.integer (-12)) = [58, 45, 49, 50, 13, 10] := by rfl
example : encode_to_bytes (.array [.bulkString [104, 105]]) =
    [42, 49, 13, 10, 36, 50, 13, 10, 104, 105, 13, 10] := by rfl
example : encode_to_string (.array [.bulkString [104, 105]]) =
    [42, 49, 13, 10, 36, 50, 13, 10, 104, 105, 13, 10] := by rfl

/- ### The decoder (`tokenize_bytes` in `src/tokenizer.rs`) -/

/-- Failure modes of the decoder.  `err` models a returned `anyhow::Error`
(the program never inspects the message, so library messages are collapsed
to one representative each); `panicked` models the `unimplemented!()` panic
on an unrecognized leading type byte; `fuelOut` is an artifact of the fuel
encoding and is unreachable for the fuel used by `tokenize_bytes`. -/
inductive TkError where
  | err (msg : String)
  | panicked
  | fuelOut

/-- One step of `tokenize_bytes` (src/tokenizer.rs:56-95), parameterized by
the function used for decoding the children of an array.  Matches the Rust
arms on the first byte: `*` 42, `$` 36, `:` 58, `+` 43, else
`unimplemented!()`. -/
def tokenizeCore
    (tokMany : Nat → List Nat → Except TkError (List Nat × List Resp))
    (buffer : List Nat) : Except TkError (List Nat × Resp) :=
  match buffer with
  | [] => .error (.err "RESP type not found")
  | t :: _ =>
    if t = 42 then
      let p := read_next_line buffer
      match fromUtf8 (p.2.drop 1) with
      | none => .error (.err "invalid utf-8")
      | some lenStr =>
        match parse_u64 lenStr with
        | none => .error (.err "invalid number")
        | some len =>
          match tokMany len p.1 with
          | .ok (rem, vec) => .ok (rem, .array vec)
          | .error e => .error e
    else if t = 36 then
      let p := read_next_line buffer
      match fromUtf8 (p.2.drop 1) with
      | none => .error (.err "invalid utf-8")
      | some lenStr =>
        match parse_u64 lenStr with
        | none => .error (.err "invalid number")
        | some len =>
          let q := read_next_line p.1
          match fromUtf8 q.2 with
          | none => .error (.err "invalid utf-8")
          | some text =>
            if len ≠ text.length then
              .error (.err "RESP bulk string len does not coincide")
            else .ok (q.1, .bulkString text)
    else if t = 58 then
      let p := read_next_line buffer
      match fromUtf8 (p.2.drop 1) with
      | none => .error (.err "invalid utf-8")
      | some intStr =>
        match parse_i64 intStr with
        | none => .error (.err "invalid number")
        | some n => .ok (p.1, .integer n)
    else if t = 43 then
      let p := read_next_line buffer
      match fromUtf8 (p.2.drop 1) with
      | none => .error (.err "invalid utf-8")
      | some text => .ok (p.1, .simpleString text)
    else .error .panicked

/-- The `for _ in 0..len` child loop of the `*` arm, parameterized by the
decoding functions for one frame and for the remaining children. -/
def tokenizeManyCore
    (tok : List Nat → Except TkError (List Nat × Resp))
    (tokMany : Nat → List Nat → Except TkError (List Nat × List Resp)) :
    Nat → List Nat → Except TkError (List Nat × List Resp)
  | 0, buf => .ok (buf, [])
  | n + 1, buf =>
    match tok buf with
    | .error e => .error e
    | .ok (rem, v) =>
      match tokMany n rem with
      | .error e => .error e
      | .ok (rem2, vs) => .ok (rem2, v :: vs)

/-- Fuel-indexed pair of the frame decoder and the child-list decoder.  The
fuel only bounds the recursion depth (the Rust recursion terminates because
every recursive call is on a strictly shorter buffer); it is an encoding
artifact, not part of the modelled program. -/
def tokPair : Nat →
    ((List Nat → Except TkError (List Nat × Resp)) ×
      (Nat → List Nat → Except TkError (List Nat × List Resp)))
  | 0 => (fun _ => .error .fuelOut, fun _ _ => .error .fuelOut)
  | f + 1 =>
    (fun buffer => tokenizeCore (tokPair f).2 buffer,
     fun n buf => tokenizeManyCore (tokPair f).1 (tokPair f).2 n buf)

/-- The frame decoder at a given fuel. -/
def tokenizeF (f : Nat) (buffer : List Nat) : Except TkError (List Nat × Resp) :=
  (tokPair f).1 buffer

/-- The child-list decoder at a given fuel. -/
def tokenizeManyF (f n : Nat) (buffer : List Nat) :
    Except TkError (List Nat × List Resp) :=
  (tokPair f).2 n buffer

/-- `tokenize_bytes` (src/tokenizer.rs:56-95): decode one frame from the
front of the buffer, returning the remainder and the frame.  The fuel
`buffer.length + 1` dominates the recursion depth of the Rust function. -/
def tokenize_bytes (buffer : List Nat) : Except TkError (List Nat × Resp) :=
  tokenizeF (buffer.length + 1) buffer

theorem tokenizeF_succ (f : Nat) (buffer : List Nat) :
    tokenizeF (f + 1) buffer = tokenizeCore (tokenizeManyF f) buffer := rfl

theorem tokenizeManyF_succ (f n : Nat) (buffer : List Nat) :
    tokenizeManyF (f + 1) n buffer =
      tokenizeManyCore (tokenizeF f) (tokenizeManyF f) n buffer := rfl

example : tokenize_bytes (strBytes "+PONG\r\n") =
    .ok ([], .simpleString (strBytes "PONG")) := by rfl
example : tokenize_bytes (strBytes "+PONG") =
    .ok ([], .simpleString (strBytes "PONG")) := by rfl
example : tokenize_bytes (strBytes "*1\r\n$4\r\nPING\r\n") =
    .ok ([], .array [.bulkString (strBytes "PING")]) := by rfl
example : tokenize_bytes (strBytes "$-1\r\n") =
    .error (.err "invalid number") := by rfl
example : tokenize_bytes [] = .error (.err "RESP type not found") := by rfl
example : tokenize_bytes (strBytes ":-42\r\nX") =
    .ok (strBytes "X", .integer (-42)) := by rfl

/- ### Round-trip: decoding an encoded frame -/

theorem natToBytes_ascii {n : Nat} : ∀ b ∈ natToBytes n, b ≤ 127 := by
  intro b hb
  have := natToBytes_digits b hb
  omega

theorem intToBytes_ascii {i : Int} : ∀ b ∈ intToBytes i, b ≤ 127 := by
  intro b hb
  unfold intToBytes at hb
  by_cases h : i < 0
  · simp only [if_pos h, List.mem_cons] at hb
    rcases hb with hb | hb
    · omega
    · have := natToBytes_digits b hb
      omega
  · simp only [if_neg h] at hb
    have := natToBytes_digits b hb
    omega

theorem crlfFree_marker {t : Nat} (ht : t ≠ 13) {l : List Nat}
    (hl : ∀ b ∈ l, b ≠ 13) : crlfFree (t :: l) = true := by
  apply crlfFree_of_not13
  intro b hb
  rcases List.mem_cons.mp hb with hb | hb
  · omega
  · exact hl b hb

theorem goodString_parts {s : List Nat} (h : goodString s = true) :
    utf8Valid s = true ∧ crlfFree s = true ∧ s.length < 2 ^ 64 := by
  have h' : (utf8Valid s = true ∧ crlfFree s = true) ∧ s.length < 2 ^ 64 := by
    simpa [goodString, Bool.and_eq_true] using h
  exact ⟨h'.1.1, h'.1.2, h'.2⟩

theorem parse_u64_natToBytes {n : Nat} (h : n < 2 ^ 64) :
    parse_u64 (natToBytes n) = some n := parseUIntB_natToBytes h

theorem parse_i64_intToBytes {i : Int} (h1 : -(2 ^ 63 : Int) ≤ i)
    (h2 : i < 2 ^ 63) : parse_i64 (intToBytes i) = some i := by
  have := parseIntB_intToBytes (2 ^ 63) i (by exact_mod_cast h1)
    (by exact_mod_cast h2)
  exact this


theorem tok_encode (f : Nat) :
    (∀ v rest, goodResp v = true → respSize v ≤ f →
      tokenizeF f (encode_to_bytes v ++ rest) = .ok (rest, v)) ∧
    (∀ vs rest, goodList vs = true → respSizeList vs + 1 ≤ f →
      tokenizeManyF f vs.length (encodeList vs ++ rest) = .ok (rest, vs)) := by
  induction f with
  | zero =>
    constructor
    · intro v rest _ hs
      have := respSize_pos v
      omega
    · intro vs rest _ hs
      omega
  | succ f ih =>
    obtain ⟨ih1, ih2⟩ := ih
    constructor
    · intro v rest hg hs
      cases v with
      | nullBulkString => simp [goodResp] at hg
      | empty => simp [goodResp] at hg
      | integer n =>
        have hb : (-(2 ^ 63 : Int) ≤ n) ∧ n < 2 ^ 63 := by
          simpa [goodResp, Bool.and_eq_true] using hg
        have hshape : encode_to_bytes (.integer n) ++ rest =
            58 :: (intToBytes n ++ 13 :: 10 :: rest) := by
          simp [encode_to_bytes]
        have hline := read_next_line_append (58 :: intToBytes n) rest
          (crlfFree_marker (by omega) intToBytes_not13)
        simp only [List.cons_append] at hline
        have hsnd : (read_next_line (58 :: (intToBytes n ++ 13 :: 10 :: rest))).2 =
            58 :: intToBytes n := by rw [hline]
        have hfst : (read_next_line (58 :: (intToBytes n ++ 13 :: 10 :: rest))).1 =
            rest := by rw [hline]
        rw [hshape, tokenizeF_succ]
        simp [tokenizeCore, hsnd, hfst,
          fromUtf8_of_valid (utf8Valid_of_ascii intToBytes_ascii),
          parse_i64_intToBytes hb.1 hb.2]
      | simpleString s =>
        obtain ⟨hutf, hcrlf, _⟩ := goodString_parts hg
        have hshape : encode_to_bytes (.simpleString s) ++ rest =
            43 :: (s ++ 13 :: 10 :: rest) := by
          simp [encode_to_bytes]
        have hline := read_next_line_append (43 :: s) rest
          (crlfFree_cons (by omega) hcrlf)
        simp only [List.cons_append] at hline
        have hsnd : (read_next_line (43 :: (s ++ 13 :: 10 :: rest))).2 =
            43 :: s := by rw [hline]
        have hfst : (read_next_line (43 :: (s ++ 13 :: 10 :: rest))).1 =
            rest := by rw [hline]
        rw [hshape, tokenizeF_succ]
        simp [tokenizeCore, hsnd, hfst, fromUtf8_of_valid hutf]
      | bulkString s =>
        obtain ⟨hutf, hcrlf, hlen⟩ := goodString_parts hg
        have hshape : encode_to_bytes (.bulkString s) ++ rest =
            36 :: (natToBytes s.length ++ 13 :: 10 :: (s ++ 13 :: 10 :: rest)) := by
          simp [encode_to_bytes]
        have hline1 := read_next_line_append (36 :: natToBytes s.length)
          (s ++ 13 :: 10 :: rest) (crlfFree_marker (by omega) natToBytes_not13)
        simp only [List.cons_append] at hline1
        have hsnd1 : (read_next_line
            (36 :: (natToBytes s.length ++ 13 :: 10 :: (s ++ 13 :: 10 :: rest)))).2 =
            36 :: natToBytes s.length := by rw [hline1]
        have hfst1 : (read_next_line
            (36 :: (natToBytes s.length ++ 13 :: 10 :: (s ++ 13 :: 10 :: rest)))).1 =
            s ++ 13 :: 10 :: rest := by rw [hline1]
        have hline2 := read_next_line_append s rest hcrlf
        have hsnd2 : (read_next_line (s ++ 13 :: 10 :: rest)).2 = s := by
          rw [hline2]
        have hfst2 : (read_next_line (s ++ 13 :: 10 :: rest)).1 = rest := by
          rw [hline2]
        rw [hshape, tokenizeF_succ]
        simp [tokenizeCore, hsnd1, hfst1, hsnd2, hfst2,
          fromUtf8_of_valid (utf8Valid_of_ascii natToBytes_ascii),
          parse_u64_natToBytes hlen, fromUtf8_of_valid hutf]
      | array vs =>
        have hparts : vs.length < 2 ^ 64 ∧ goodList vs = true := by
          simpa [goodResp, Bool.and_eq_true] using hg
        have hsz : respSizeList vs + 1 ≤ f := by
          have hrs : respSize (.array vs) = 2 + respSizeList vs := rfl
          omega
        have hshape : encode_to_bytes (.array vs) ++ rest =
            42 :: (natToBytes vs.length ++ 13 :: 10 :: (encodeList vs ++ rest)) := by
          simp [encode_to_bytes]
        have hline := read_next_line_append (42 :: natToBytes vs.length)
          (encodeList vs ++ rest) (crlfFree_marker (by omega) natToBytes_not13)
        simp only [List.cons_append] at hline
        have hsnd : (read_next_line
            (42 :: (natToBytes vs.length ++ 13 :: 10 :: (encodeList vs ++ rest)))).2 =
            42 :: natToBytes vs.length := by rw [hline]
        have hfst : (read_next_line
            (42 :: (natToBytes vs.length ++ 13 :: 10 :: (encodeList vs ++ rest)))).1 =
            encodeList vs ++ rest := by rw [hline]
        have hih := ih2 vs rest hparts.2 hsz
        rw [hshape, tokenizeF_succ]
        simp [tokenizeCore, hsnd, hfst,
          fromUtf8_of_valid (utf8Valid_of_ascii natToBytes_ascii),
          parse_u64_natToBytes hparts.1, hih]
    · intro vs rest hg hs
      cases vs with
      | nil =>
        rw [tokenizeManyF_succ]
        simp [tokenizeManyCore, encodeList]
      | cons v vs' =>
        obtain ⟨hgv, hgvs'⟩ := goodList_cons hg
        have hseq : respSizeList (v :: vs') = respSize v + respSizeList vs' := rfl
        have hszv : respSize v ≤ f := by omega
        have hszl : respSizeList vs' + 1 ≤ f := by
          have := respSize_pos v
          omega
        have hshape : encodeList (v :: vs') ++ rest =
            encode_to_bytes v ++ (encodeList vs' ++ rest) := by
          simp [encodeList, List.append_assoc]
        have hv := ih1 v (encodeList vs' ++ rest) hgv hszv
        have hl := ih2 vs' rest hgvs' hszl
        rw [tokenizeManyF_succ]
        simp only [List.length_cons]
        rw [hshape]
        simp [tokenizeManyCore, hv, hl]

/-- Round-trip at the fuel used by `tokenize_bytes`, for any trailing
suffix. -/
theorem tokenize_encode_suffix {v : Resp} (rest : List Nat)
    (hg : goodResp v = true)
    (hf : respSize v ≤ (encode_to_bytes v ++ rest).length + 1) :
    tokenize_bytes (encode_to_bytes v ++ rest) = .ok (rest, v) :=
  (tok_encode _).1 v rest hg hf

theorem natToBytes_length_pos (n : Nat) : 1 ≤ (natToBytes n).length := by
  cases hx : natToBytes n with
  | nil => exact absurd hx (natToBytes_ne_nil n)
  | cons b rest => simp

theorem size_le_enc (n : Nat) :
    (∀ v, respSize v ≤ n → goodResp v = true →
      respSize v ≤ (encode_to_bytes v).length) ∧
    (∀ vs, respSizeList vs ≤ n → goodList vs = true →
      respSizeList vs ≤ (encodeList vs).length) := by
  induction n with
  | zero =>
    constructor
    · intro v hs _
      have := respSize_pos v
      omega
    · intro vs hs _
      omega
  | succ n ih =>
    obtain ⟨ih1, ih2⟩ := ih
    have h1 : ∀ v, respSize v ≤ n + 1 → goodResp v = true →
        respSize v ≤ (encode_to_bytes v).length := by
      intro v hs hg
      cases v with
      | nullBulkString => simp [goodResp] at hg
      | empty => simp [goodResp] at hg
      | integer m => simp [respSize, encode_to_bytes]
      | simpleString s => simp [respSize, encode_to_bytes]
      | bulkString s => simp [respSize, encode_to_bytes]
      | array vs =>
        have hparts : vs.length < 2 ^ 64 ∧ goodList vs = true := by
          simpa [goodResp, Bool.and_eq_true] using hg
        have hsz : respSizeList vs ≤ n := by
          have hrs : respSize (.array vs) = 2 + respSizeList vs := rfl
          omega
        have hlist := ih2 vs hsz hparts.2
        have hlen := natToBytes_length_pos vs.length
        simp only [respSize, encode_to_bytes, List.length_cons,
          List.length_append]
        simp
        omega
    refine ⟨h1, ?_⟩
    intro vs hs hg
    cases vs with
    | nil => simp [respSizeList, encodeList]
    | cons v vs' =>
      obtain ⟨hgv, hgvs'⟩ := goodList_cons hg
      have hseq : respSizeList (v :: vs') = respSize v + respSizeList vs' := rfl
      have hv := h1 v (by have := respSize_pos v; omega) hgv
      have hl := ih2 vs' (by have := respSize_pos v; omega) hgvs'
      simp only [encodeList, List.length_append]
      omega

theorem goodResp_size_le (v : Resp) (hg : goodResp v = true) :
    respSize v ≤ (encode_to_bytes v).length :=
  (size_le_enc (respSize v)).1 v le_rfl hg

/-- For every good frame, decoding its encoding yields the frame with an
empty remainder. -/
theorem tokenize_encode_good (v : Resp) (hg : goodResp v = true) :
    tokenize_bytes (encode_to_bytes v) = .ok ([], v) := by
  have hb := goodResp_size_le v hg
  have h := (tok_encode ((encode_to_bytes v).length + 1)).1 v [] hg (by omega)
  rw [List.append_nil] at h
  exact h

/- ### Agreement of the two encoders -/

theorem enc_agree_aux (n : Nat) :
    (∀ v, respSize v ≤ n → encode_to_string v = encode_to_bytes v) ∧
    (∀ vs, respSizeList vs ≤ n → encodeStringList vs = encodeList vs) := by
  induction n with
  | zero =>
    constructor
    · intro v hs
      have := respSize_pos v
      omega
    · intro vs hs
      cases vs with
      | nil => rfl
      | cons v vs' =>
        have hseq : respSizeList (v :: vs') = respSize v + respSizeList vs' := rfl
        have := respSize_pos v
        omega
  | succ n ih =>
    obtain ⟨ih1, ih2⟩ := ih
    have h1 : ∀ v, respSize v ≤ n + 1 → encode_to_string v = encode_to_bytes v := by
      intro v hs
      cases v with
      | nullBulkString => rfl
      | empty => rfl
      | integer m => simp [encode_to_string, encode_to_bytes]
      | simpleString s => simp [encode_to_string, encode_to_bytes]
      | bulkString s => simp [encode_to_string, encode_to_bytes]
      | array vs =>
        have hsz : respSizeList vs ≤ n := by
          have hrs : respSize (.array vs) = 2 + respSizeList vs := rfl
          omega
        simp [encode_to_string, encode_to_bytes, ih2 vs hsz]
    refine ⟨h1, ?_⟩
    intro vs hs
    cases vs with
    | nil => rfl
    | cons v vs' =>
      have hseq : respSizeList (v :: vs') = respSize v + respSizeList vs' := rfl
      have hv := h1 v (by have := respSize_pos v; omega)
      have hl := ih2 vs' (by have := respSize_pos v; omega)
      simp [encodeStringList, encodeList, hv, hl]

theorem encoders_agree (v : Resp) : encode_to_string v = encode_to_bytes v :=
  (enc_agree_aux (respSize v)).1 v le_rfl

/- ### The command model (`src/commands.rs`) -/

/-- `InfoSection` (src/commands.rs:25-28). -/
inductive InfoSection where
  | replication

/-- `ReplConfMode` (src/commands.rs:49-55). -/
inductive ReplConfMode where
  | listeningPort (port : Nat)
  | capability (capa : List Nat)
  | getAck (ack : List Nat)
  | ack (offset : Int)

/-- `SetOptions` (src/commands.rs:17-22). -/
structure SetOptions where
  key : List Nat
  value : List Nat
  expire : Option Nat

/-- `RedisCommands` (src/commands.rs:5-15). -/
inductive RedisCommands where
  | echo (text : List Nat)
  | ping
  | set (opts : SetOptions)
  | get (key : List Nat)
  | info (sect : Option InfoSection)
  | replConf (mode : ReplConfMode)
  | psync (replId : List Nat) (replOffset : Int)
  | wait (minReplicas : Int) (timeoutMs : Nat)

/-- Failures of command derivation: `err` models a returned `anyhow::Error`,
`panicked` models the `unimplemented!()` in the catch-all arm. -/
inductive CmdError where
  | err (msg : String)
  | panicked

/-- `TryFrom<&str> for InfoSection` (src/commands.rs:30-39). -/
def infoSectionTryFrom (value : List Nat) : Except CmdError InfoSection :=
  if asciiLower value = strBytes "replication" then .ok .replication
  else .error (.err "info section not supported")

/-- `TryFrom<(&str, &str)> for ReplConfMode` (src/commands.rs:57-72). -/
def replConfModeTryFrom (mode arg : List Nat) : Except CmdError ReplConfMode :=
  let m := asciiLower mode
  if m = strBytes "listening-port" then
    match parse_u16 arg with
    | some port => .ok (.listeningPort port)
    | none => .error (.err "invalid number")
  else if m = strBytes "capa" then .ok (.capability arg)
  else if m = strBytes "getack" then .ok (.getAck arg)
  else if m = strBytes "ack" then
    match parse_i64 arg with
    | some off => .ok (.ack off)
    | none => .error (.err "invalid number")
  else .error (.err "replconf mode not supported")

/-- Modelled from the spec: the `"wait"` arm of
`TryFrom<Resp> for RedisCommands`.  The `commands.rs` under `src/` declares
`RedisCommands::Wait(i32, u64)` and `main.rs` dispatches on `Wait` (and on a
`Config` variant that `commands.rs` does not even declare), so the parsing
arm itself belongs to a revision of `commands.rs` that is not in the
snapshot.  Following the spec: "`WAIT numreplicas timeout` — i32 and u64
respectively", with argument handling in the style of the neighbouring
`psync` arm. -/
def parseWaitArm (array : List Resp) : Except CmdError RedisCommands :=
  match array.get? 1 with
  | some (.bulkString numReplicas) =>
    match array.get? 2 with
    | some (.bulkString timeout) =>
      match parse_i32 numReplicas with
      | some k =>
        match parse_u64 timeout with
        | some t => .ok (.wait k t)
        | none => .error (.err "invalid number")
      | none => .error (.err "invalid number")
    | _ => .error (.err "Wait timeout missing")
  | _ => .error (.err "Wait numreplicas missing")

/-- `TryFrom<Resp> for RedisCommands` (src/commands.rs:97-162): a command is
derived from a top-level array whose first element is a bulk string naming
the command (matched after lowercasing); the `wait` arm is spec-modelled
(see `parseWaitArm`); every other unknown name hits `unimplemented!()`. -/
def tryFromResp (value : Resp) : Except CmdError RedisCommands :=
  match value with
  | .array array =>
    match array.head? with
    | some (.bulkString command) =>
      let cmd := asciiLower command
      if cmd = strBytes "ping" then .ok .ping
      else if cmd = strBytes "echo" then
        match array.get? 1 with
        | some (.bulkString text) => .ok (.echo text)
        | _ => .error (.err "Echo arg not supported")
      else if cmd = strBytes "set" then
        match array.get? 1, array.get? 2 with
        | some (.bulkString key), some (.bulkString v) =>
          match array.get? 3, array.get? 4 with
          | some (.bulkString option), some (.bulkString pxValue) =>
            if asciiLower option = strBytes "px" then
              match parse_u64 pxValue with
              | some e => .ok (.set ⟨key, v, some e⟩)
              | none => .error (.err "invalid number")
            else .ok (.set ⟨key, v, none⟩)
          | _, _ => .ok (.set ⟨key, v, none⟩)
        | _, _ => .error (.err "Set arg not supported")
      else if cmd = strBytes "get" then
        match array.get? 1 with
        | some (.bulkString text) => .ok (.get text)
        | _ => .error (.err "Get arg not supported")
      else if cmd = strBytes "info" then
        match array.get? 1 with
        | some (.bulkString sectionArg) =>
          match infoSectionTryFrom sectionArg with
          | .ok sec => .ok (.info (some sec))
          | .error e => .error e
        | none => .ok (.info none)
        | some _ => .error (.err "Info arg not supported")
      else if cmd = strBytes "replconf" then
        match array.get? 1 with
        | some (.bulkString mode) =>
          match array.get? 2 with
          | some (.bulkString modeArg) =>
            match replConfModeTryFrom mode modeArg with
            | .ok m => .ok (.replConf m)
            | .error e => .error e
          | _ => .error (.err "ReplConf second arg missing")
        | _ => .error (.err "ReplConf mode missing")
      else if cmd = strBytes "psync" then
        match array.get? 1 with
        | some (.bulkString replId) =>
          match array.get? 2 with
          | some (.bulkString replOffset) =>
            match parse_i64 replOffset with
            | some off => .ok (.psync replId off)
            | none => .error (.err "invalid number")
          | _ => .error (.err "PSync repl_offset missing")
        | _ => .error (.err "PSync repl_id missing")
      else if cmd = strBytes "wait" then parseWaitArm array
      else .error .panicked
    | _ => .error (.err "Command failed")
  | _ => .error (.err "Command failed")

/-- `From<InfoSection> for Resp` (src/commands.rs:41-47). -/
def infoSectionResp : InfoSection → Resp
  | .replication => .bulkString (strBytes "REPLICATION")

/-- `From<ReplConfMode> for Vec<Resp>` (src/commands.rs:74-95). -/
def replConfModeResps : ReplConfMode → List Resp
  | .listeningPort port =>
    [.bulkString (strBytes "LISTENING-PORT"), .bulkString (natToBytes port)]
  | .capability capa => [.bulkString (strBytes "CAPA"), .bulkString capa]
  | .getAck a => [.bulkString (strBytes "GETACK"), .bulkString a]
  | .ack off => [.bulkString (strBytes "ACK"), .bulkString (intToBytes off)]

/-- `From<RedisCommands> for Resp` (src/commands.rs:164-219): render a
command back to its request frame. -/
def respFromCommand : RedisCommands → Resp
  | .echo text => .array [.bulkString (strBytes "ECHO"), .bulkString text]
  | .ping => .array [.bulkString (strBytes "PING")]
  | .set opts =>
    .array ([.bulkString (strBytes "SET"), .bulkString opts.key,
      .bulkString opts.value] ++
      (match opts.expire with
       | some e => [.bulkString (strBytes "PX"), .bulkString (natToBytes e)]
       | none => []))
  | .get key => .array [.bulkString (strBytes "GET"), .bulkString key]
  | .info sect =>
    .array ([.bulkString (strBytes "INFO")] ++
      (match sect with
       | some sec => [infoSectionResp sec]
       | none => []))
  | .replConf mode =>
    .array (.bulkString (strBytes "REPLCONF") :: replConfModeResps mode)
  | .psync replId replOffset =>
    .array [.bulkString (strBytes "PSYNC"), .bulkString replId,
      .bulkString (intToBytes replOffset)]
  | .wait n t =>
    .array [.bulkString (strBytes "WAIT"), .bulkString (intToBytes n),
      .bulkString (natToBytes t)]

example : tryFromResp (.array [.bulkString (strBytes "PING")]) = .ok .ping := by
  rfl
example : tryFromResp (.array [.bulkString (strBytes "FLUSHALL")]) =
    .error .panicked := by rfl
example : tryFromResp (.array [.bulkString (strBytes "SeT"),
    .bulkString (strBytes "k"), .bulkString (strBytes "v"),
    .bulkString (strBytes "px"), .bulkString (strBytes "100")]) =
    .ok (.set ⟨strBytes "k", strBytes "v", some 100⟩) := by rfl
example : tryFromResp (.array [.bulkString (strBytes "WAIT"),
    .bulkString (strBytes "2"), .bulkString (strBytes "500")]) =
    .ok (.wait 2 500) := by rfl
example : tryFromResp (.array [.bulkString (strBytes "REPLCONF"),
    .bulkString (strBytes "GETACK"), .bulkString (strBytes "*")]) =
    .ok (.replConf (.getAck (strBytes "*"))) := by rfl
example : encode_to_bytes (respFromCommand (.replConf (.getAck (strBytes "*")))) =
    strBytes "*3\r\n$8\r\nREPLCONF\r\n$6\r\nGETACK\r\n$1\r\n*\r\n" := by rfl

/- ### Keyspace and server state (`src/main.rs`) -/

/-- `Value` (src/main.rs:23-27); `timestamp` is the `SystemTime::now()` of
insertion, modelled as milliseconds on a monotone clock. -/
structure Value where
  value : List Nat
  expire : Option Nat
  timestamp : Nat

/-- The shared keyspace `HashMap<String, Value>`, as an association list in
which an insertion shadows older entries (observationally equivalent to
`HashMap::insert` under `mapGet`). -/
def RedisMap := List (List Nat × Value)

/-- `HashMap::insert`. -/
def mapInsert (key : List Nat) (v : Value) (m : RedisMap) : RedisMap :=
  (key, v) :: m

/-- `HashMap::get`. -/
def mapGet (key : List Nat) : RedisMap → Option Value
  | [] => none
  | (k, v) :: rest => if k = key then some v else mapGet key rest

/-- `SystemTime::duration_since`: fails when `now` is earlier than `t`. -/
def durationSince (now t : Nat) : Option Nat :=
  if t ≤ now then some (now - t) else none

/-- The `filter` closure of the GET arm (src/main.rs:390-397): keep the
entry when it has no expiry, when the clock went backwards, or when the
elapsed time is below the expiry. -/
def getFilter (now : Nat) (v : Value) : Bool :=
  match v.expire with
  | some e =>
    match durationSince now v.timestamp with
    | some d => decide (d < e)
    | none => true
  | none => true

/-- The GET arm of `handle_command` (src/main.rs:385-404): the filtered
lookup, answered with a BulkString or a NullBulkString. -/
def handleCommandGet (key : List Nat) (redis_map : RedisMap) (now : Nat) : Resp :=
  match mapGet key redis_map with
  | some v => if getFilter now v then .bulkString v.value else .nullBulkString
  | none => .nullBulkString

/-- `ReplicaData` (src/main.rs:54-57); the follower socket is modelled by
the accumulated bytes written to it. -/
structure ReplicaData where
  sent : List Nat
  latest_offset : Nat

/-- `MasterStatus` (src/main.rs:45-52), without the out-of-scope
`dir` / `db_filename` configuration fields. -/
structure MasterStatus where
  repl_id : List Nat
  repl_offset : Nat
  repl_data_offset : Nat
  replicas_data : List ReplicaData

/-- The SET arm of `handle_command` on a leader (src/main.rs:360-384):
insert into the keyspace, advance `repl_offset` by the encoded length of
the SET frame, set `repl_data_offset` to the new `repl_offset`, append the
encoded SET to every follower socket, and reply `+OK` (rendered with
`encode_to_string` at src/main.rs:516). -/
def handleCommandSet (options : SetOptions) (redis_map : RedisMap)
    (master : MasterStatus) (now : Nat) : RedisMap × MasterStatus × List Nat :=
  let map2 := mapInsert options.key ⟨options.value, options.expire, now⟩ redis_map
  let setBytes := encode_to_bytes (respFromCommand (.set options))
  let master2 : MasterStatus := { master with
    repl_offset := master.repl_offset + setBytes.length
    repl_data_offset := master.repl_offset + setBytes.length
    replicas_data :=
      master.replicas_data.map (fun r => { r with sent := r.sent ++ setBytes }) }
  (map2, master2, encode_to_string (.simpleString (strBytes "OK")))

/- ### The follower's command stream (`connect_master`, src/main.rs) -/

/-- `handle_master_command` (src/main.rs:275-304): apply one replicated
command on the follower; only a GETACK produces outbound bytes, and the
ACK it renders carries the `ack_offset` passed in by the caller. -/
def handle_master_command (command : RedisCommands) (redis_map : RedisMap)
    (ack_offset : Int) (now : Nat) : RedisMap × List Nat :=
  match command with
  | .ping => (redis_map, [])
  | .set opts =>
    (mapInsert opts.key ⟨opts.value, opts.expire, now⟩ redis_map, [])
  | .replConf (.getAck _) =>
    (redis_map, encode_to_bytes (respFromCommand (.replConf (.ack ack_offset))))
  | _ => (redis_map, [])

/-- Outcome of one iteration of the follower's post-handshake loop. -/
inductive MasterStep where
  | halt
  | fatal (e : CmdError)
  | next (ack : Int) (rest : List Nat) (map : RedisMap) (out : List Nat)

/-- One iteration of the post-handshake loop of `connect_master`
(src/main.rs:251-272): an empty buffer ends the worker; a decoded frame is
turned into a command and applied via `handle_master_command` with the
CURRENT `ack_offset`, and only afterwards is `ack_offset` advanced by the
consumed byte count; an undecodable buffer is skipped with zero bytes
consumed; a command-derivation error propagates out of the worker. -/
def connectMasterStep (ack_offset : Int) (buffer : List Nat)
    (redis_map : RedisMap) (now : Nat) : MasterStep :=
  if buffer = [] then .halt
  else
    match tokenize_bytes buffer with
    | .ok (remainder, tokens) =>
      match tryFromResp tokens with
      | .ok command =>
        let res := handle_master_command command redis_map ack_offset now
        let consumed := buffer.length - remainder.length
        .next (ack_offset + (consumed : Int)) remainder res.1 res.2
      | .error e => .fatal e
    | .error _ => .next ack_offset buffer redis_map []

/- ### The WAIT gate (src/main.rs:436-484) -/

/-- The rendered `REPLCONF GETACK *` probe. -/
def getackBytes : List Nat :=
  encode_to_bytes (respFromCommand (.replConf (.getAck (strBytes "*"))))

/-- `replica_oks`: the number of followers whose `latest_offset` has
reached the snapshotted target (the `map`/`sum` at src/main.rs:466-474). -/
def replicaOks (target : Nat) (replicas : List ReplicaData) : Nat :=
  (replicas.map (fun r => if target ≤ r.latest_offset then 1 else 0)).sum

/-- The polling `loop` of the WAIT arm (src/main.rs:465-482).  `states i`
is the shared `replicas_data` as observed by iteration `i` (follower ACKs
arrive concurrently), `deadline i` tells whether the timeout had expired
when iteration `i` checked it, and `lastOks` is the `last_replica_oks`
variable (initially 0, assigned only after the sleep).  The fuel only
bounds the number of iterations; `none` stands for a run that neither
reached the quorum nor the deadline within the fuel. -/
def waitPollLoop (states : Nat → List ReplicaData) (deadline : Nat → Bool)
    (target : Nat) (numReplicas : Int) :
    Nat → Nat → Nat → Option Nat
  | 0, _, _ => none
  | fuel + 1, iter, lastOks =>
    let oks := replicaOks target (states iter)
    if numReplicas ≤ (oks : Int) then some oks
    else if deadline iter then some lastOks
    else waitPollLoop states deadline target numReplicas fuel (iter + 1) oks

/-- The WAIT arm of `handle_command` (src/main.rs:436-484): snapshot the
follower list and `repl_data_offset`; with no replicated write yet, reply
with the current follower count; otherwise send a GETACK probe to every
follower, advance `repl_offset` by the probe's length (but not
`repl_data_offset`), and poll. -/
def handleCommandWait (numReplicas : Int) (master : MasterStatus)
    (states : Nat → List ReplicaData) (deadline : Nat → Bool) (fuel : Nat) :
    Option (Resp × MasterStatus) :=
  let target := master.repl_data_offset
  if target = 0 then
    some (.integer (master.replicas_data.length : Int), master)
  else
    let master2 : MasterStatus := { master with
      repl_offset := master.repl_offset + getackBytes.length
      replicas_data :=
        master.replicas_data.map (fun r => { r with sent := r.sent ++ getackBytes }) }
    match waitPollLoop states deadline target numReplicas fuel 0 0 with
    | some oks => some (.integer (oks : Int), master2)
    | none => none

/- ### Claim theorems -/

/-- C1 counterexample: the claim includes NullBulk among the round-tripping
variants, but decoding the NullBulk encoding `$-1\r\n` fails, because the
`$` arm parses the length line with `parse::<usize>()`, which rejects
`-1`.  So `decode(encode(NullBulk))` is an error, not `(empty, NullBulk)`. -/
theorem c1_nullbulk_counterexample :
    tokenize_bytes (encode_to_bytes .nullBulkString) = .error (.err "invalid number") ∧
    ¬ tokenize_bytes (encode_to_bytes .nullBulkString) = .ok ([], .nullBulkString) := by
  constructor
  · rfl
  · intro h
    rw [show tokenize_bytes (encode_to_bytes .nullBulkString) =
      .error (.err "invalid number") from rfl] at h
    exact Except.noConfusion h

/-- C1 (amended): for every frame value built from the Array, BulkString,
SimpleString and Integer variants whose strings are well formed and contain
no CR LF byte pair (`goodResp`), decoding the encoding yields exactly the
frame with an empty remainder.  NullBulk is excluded (its round-trip fails,
see the counterexample), as are strings with embedded CR LF, at which the
decoder splits early. -/
theorem c1_decode_encode_roundtrip (v : Resp) (hg : goodResp v = true) :
    tokenize_bytes (encode_to_bytes v) = .ok ([], v) :=
  tokenize_encode_good v hg

/-- C1 witness: the round-trip theorem applied to the concrete frame
`Array [BulkString "hi", Integer (-5)]`. -/
theorem c1_roundtrip_witness :
    goodResp (.array [.bulkString (strBytes "hi"), .integer (-5)]) = true ∧
    tokenize_bytes (encode_to_bytes
        (.array [.bulkString (strBytes "hi"), .integer (-5)])) =
      .ok ([], .array [.bulkString (strBytes "hi"), .integer (-5)]) :=
  ⟨by rfl, c1_decode_encode_roundtrip _ (by rfl)⟩

/-- C2 counterexample: the buffer `+PONG` is a strict prefix of the
well-formed encoding `+PONG\r\n`, yet decoding does not fail at all:
`read_next_line` treats the missing CR LF as end of line, so the decoder
returns the full SimpleString with an empty remainder. -/
theorem c2_incomplete_decodes_counterexample :
    strBytes "+PONG" ++ [13, 10] =
      encode_to_bytes (.simpleString (strBytes "PONG")) ∧
    tokenize_bytes (strBytes "+PONG") =
      .ok ([], .simpleString (strBytes "PONG")) :=
  ⟨rfl, rfl⟩

/-- C2 (amended): the decoder has no `Incomplete` / `Malformed` error
kinds.  A buffer lacking a full frame may decode successfully (a frame cut
exactly at its final CR LF, e.g. `+PONG`), or fail with a generic
untyped error (empty buffer; truncated bulk payload), the same error family
used for syntactically invalid input, while an unrecognized leading type
byte does not produce an error value at all but panics via
`unimplemented!()`. -/
theorem c2_error_behavior :
    tokenize_bytes (strBytes "+PONG") =
      .ok ([], .simpleString (strBytes "PONG")) ∧
    tokenize_bytes [] = .error (.err "RESP type not found") ∧
    tokenize_bytes (strBytes "$3\r\nab") =
      .error (.err "RESP bulk string len does not coincide") ∧
    tokenize_bytes (strBytes "?hello\r\n") = .error .panicked :=
  ⟨rfl, rfl, rfl, rfl⟩

/-- C3 counterexample: for the payload `p = [CR, LF]` (n = 2), decoding
`$2\r\n\r\n\r\n` fails: the payload line is cut at the first CR LF, so the
length check `2 = 0` fails.  BulkString decoding is therefore not
binary-safe. -/
theorem c3_crlf_payload_counterexample :
    tokenize_bytes (36 :: (natToBytes 2 ++ 13 :: 10 :: ([13, 10] ++ [13, 10]))) =
      .error (.err "RESP bulk string len does not coincide") ∧
    ¬ tokenize_bytes (36 :: (natToBytes 2 ++ 13 :: 10 :: ([13, 10] ++ [13, 10]))) =
      .ok ([], .bulkString [13, 10]) := by
  constructor
  · rfl
  · intro h
    rw [show tokenize_bytes (36 :: (natToBytes 2 ++ 13 :: 10 :: ([13, 10] ++ [13, 10]))) =
      .error (.err "RESP bulk string len does not coincide") from rfl] at h
    exact Except.noConfusion h

/-- C3 (amended): decoding `$<n>\r\n<p>\r\n` succeeds with payload exactly
`p` when `p` is valid UTF-8 (the decoder insists on `String::from_utf8`)
and contains no CR LF pair (the payload line is cut at the first CR LF);
`n` is the byte count of `p`. -/
theorem c3_bulk_decode (p : List Nat) (h1 : utf8Valid p = true)
    (h2 : crlfFree p = true) (h3 : p.length < 2 ^ 64) :
    tokenize_bytes (36 :: (natToBytes p.length ++ 13 :: 10 :: (p ++ [13, 10]))) =
      .ok ([], .bulkString p) := by
  have hg : goodResp (.bulkString p) = true := by
    simp [goodResp, goodString, h1, h2]
    omega
  exact tokenize_encode_good (.bulkString p) hg

/-- C3 witness: the bulk decode theorem applied to the payload `a CR b`
(a lone CR, no CR LF pair). -/
theorem c3_bulk_decode_witness :
    utf8Valid (strBytes "a\rb") = true ∧ crlfFree (strBytes "a\rb") = true ∧
    (strBytes "a\rb").length < 2 ^ 64 ∧
    tokenize_bytes (36 :: (natToBytes (strBytes "a\rb").length ++
        13 :: 10 :: (strBytes "a\rb" ++ [13, 10]))) =
      .ok ([], .bulkString (strBytes "a\rb")) :=
  ⟨rfl, rfl, by decide,
    c3_bulk_decode (strBytes "a\rb") rfl rfl (by decide)⟩

/-- C4: on a leader, a parsed SET (a) inserts the key with value and
optional ttl (timestamped now) into the keyspace, (b) advances
`repl_offset` by exactly the byte length of the encoded SET frame,
(c) makes `data_offset` equal to the new `repl_offset`, (d) writes the
encoded SET frame to every registered follower socket, and (e) replies
`+OK` to the client. -/
theorem c4_set_on_leader (options : SetOptions) (redis_map : RedisMap)
    (master : MasterStatus) (now : Nat) :
    mapGet options.key (handleCommandSet options redis_map master now).1 =
      some ⟨options.value, options.expire, now⟩ ∧
    (handleCommandSet options redis_map master now).2.1.repl_offset =
      master.repl_offset +
        (encode_to_bytes (respFromCommand (.set options))).length ∧
    (handleCommandSet options redis_map master now).2.1.repl_data_offset =
      (handleCommandSet options redis_map master now).2.1.repl_offset ∧
    (handleCommandSet options redis_map master now).2.1.replicas_data =
      master.replicas_data.map (fun r => { r with
        sent := r.sent ++ encode_to_bytes (respFromCommand (.set options)) }) ∧
    (handleCommandSet options redis_map master now).2.2 = strBytes "+OK\r\n" := by
  refine ⟨?_, rfl, rfl, rfl, rfl⟩
  simp [handleCommandSet, mapInsert, mapGet]

/-- C5 counterexample: with `ack_offset = 0` and the leader stream holding
exactly one `REPLCONF GETACK *` frame (37 bytes), the follower's reply
renders `REPLCONF ACK 0`, not `REPLCONF ACK 37`: the offset is advanced
only AFTER the command is applied, so the ACK does not include the GETACK
frame's own bytes, contrary to the claim. -/
theorem c5_ack_excludes_getack_counterexample :
    connectMasterStep 0 getackBytes [] 0 =
      .next (getackBytes.length : Int) [] []
        (encode_to_bytes (respFromCommand (.replConf (.ack 0)))) ∧
    getackBytes.length = 37 ∧
    ¬ encode_to_bytes (respFromCommand (.replConf (.ack 0))) =
      encode_to_bytes (respFromCommand (.replConf (.ack 37))) := by
  refine ⟨rfl, rfl, ?_⟩
  decide

/-- C5 (amended): for every command frame decoded from the post-handshake
leader stream, the command is applied with the CURRENT `ack_offset`, and
`ack_offset` is advanced by the consumed byte count only AFTER the command
was applied; in particular a REPLCONF GETACK is answered with
`REPLCONF ACK <ack_offset>` where `ack_offset` does NOT yet include the
bytes of the GETACK frame itself. -/
theorem c5_offset_after_apply (ack : Int) (buffer : List Nat)
    (redis_map : RedisMap) (now : Nat) (rem : List Nat) (tokens : Resp)
    (command : RedisCommands) (hne : buffer ≠ [])
    (htok : tokenize_bytes buffer = .ok (rem, tokens))
    (hcmd : tryFromResp tokens = .ok command) :
    connectMasterStep ack buffer redis_map now =
      .next (ack + ((buffer.length - rem.length : Nat) : Int)) rem
        (handle_master_command command redis_map ack now).1
        (handle_master_command command redis_map ack now).2 ∧
    (∀ s, command = .replConf (.getAck s) →
      (handle_master_command command redis_map ack now).2 =
        encode_to_bytes (respFromCommand (.replConf (.ack ack)))) := by
  constructor
  · simp [connectMasterStep, hne, htok, hcmd]
  · intro s hs
    subst hs
    rfl

/-- C5 witness: one loop iteration on the concrete 37-byte GETACK frame
with `ack_offset = 5`: the reply renders ACK 5 and the new offset is 42. -/
theorem c5_offset_after_apply_witness :
    connectMasterStep 5 getackBytes [] 0 =
      .next (5 + ((getackBytes.length - ([] : List Nat).length : Nat) : Int)) []
        (handle_master_command (.replConf (.getAck (strBytes "*"))) [] 5 0).1
        (handle_master_command (.replConf (.getAck (strBytes "*"))) [] 5 0).2 ∧
    (handle_master_command (.replConf (.getAck (strBytes "*"))) [] 5 0).2 =
      encode_to_bytes (respFromCommand (.replConf (.ack 5))) :=
  ⟨(c5_offset_after_apply 5 getackBytes [] 0 []
      (.array [.bulkString (strBytes "REPLCONF"), .bulkString (strBytes "GETACK"),
        .bulkString (strBytes "*")])
      (.replConf (.getAck (strBytes "*"))) (by decide) rfl rfl).1,
   (c5_offset_after_apply 5 getackBytes [] 0 []
      (.array [.bulkString (strBytes "REPLCONF"), .bulkString (strBytes "GETACK"),
        .bulkString (strBytes "*")])
      (.replConf (.getAck (strBytes "*"))) (by decide) rfl rfl).2
      (strBytes "*") rfl⟩

/-- C6 counterexample: two required replicas, one replica already at the
target offset, deadline expired at the first poll.  The observed count at
the terminating iteration is 1, but WAIT returns Integer 0 — the
`last_replica_oks` of the PREVIOUS iteration (initially 0), not the count
observed at termination. -/
theorem c6_stale_count_counterexample :
    (handleCommandWait 2 ⟨[], 100, 5, [⟨[], 5⟩]⟩ (fun _ => [⟨[], 5⟩])
        (fun _ => true) 1).map (fun r => r.1) = some (.integer 0) ∧
    replicaOks 5 [⟨[], 5⟩] = 1 :=
  ⟨rfl, rfl⟩

/-- C6 (amended): WAIT polls the followers' `latest_offset` values against
the snapshotted `repl_data_offset` target and returns as soon as the count
reaches `numReplicas`; but on deadline expiry it returns
`last_replica_oks` — the count of the PREVIOUS polling iteration
(initially 0) — which may lag the count observed at the terminating
iteration.  With `repl_data_offset = 0` it short-circuits to the current
follower count. -/
theorem c6_wait_gate (states : Nat → List ReplicaData) (deadline : Nat → Bool)
    (target : Nat) (k : Int) (fuel iter lastOks : Nat) :
    (k ≤ (replicaOks target (states iter) : Int) →
      waitPollLoop states deadline target k (fuel + 1) iter lastOks =
        some (replicaOks target (states iter))) ∧
    ((replicaOks target (states iter) : Int) < k → deadline iter = true →
      waitPollLoop states deadline target k (fuel + 1) iter lastOks =
        some lastOks) ∧
    (∀ master : MasterStatus, master.repl_data_offset = 0 →
      handleCommandWait k master states deadline fuel =
        some (.integer (master.replicas_data.length : Int), master)) := by
  refine ⟨?_, ?_, ?_⟩
  · intro h
    simp [waitPollLoop, h]
  · intro h1 h2
    have hn : ¬ k ≤ (replicaOks target (states iter) : Int) := by omega
    simp [waitPollLoop, hn, h2]
  · intro master h
    simp [handleCommandWait, h]

/-- C6 witness: the deadline branch of the WAIT gate at a concrete state
(one caught-up replica, quorum 2, stale count 3). -/
theorem c6_wait_gate_witness :
    ((replicaOks 5 [⟨[], 5⟩] : Int) < 2 ∧ (fun (_ : Nat) => true) 0 = true) ∧
    waitPollLoop (fun _ => [⟨[], 5⟩]) (fun _ => true) 5 2 1 0 3 = some 3 ∧
    handleCommandWait 2 ⟨[], 7, 0, []⟩ (fun _ => [⟨[], 5⟩]) (fun _ => true) 4 =
      some (.integer 0, ⟨[], 7, 0, []⟩) :=
  ⟨⟨by decide, rfl⟩,
   (c6_wait_gate (fun _ => [⟨[], 5⟩]) (fun _ => true) 5 2 0 0 3).2.1
     (by decide) rfl,
   (c6_wait_gate (fun _ => [⟨[], 5⟩]) (fun _ => true) 5 2 4 0 0).2.2
     ⟨[], 7, 0, []⟩ rfl⟩

/-- C7: deriving a command from `Array [BulkString "FLUSHALL"]` — a frame
whose first element names no recognized command — does not return an error
result: the catch-all arm of `TryFrom<Resp> for RedisCommands` is
`unimplemented!()`, modelled as the distinguished `panicked` outcome,
which aborts the worker instead of giving the caller a parse failure. -/
theorem c7_unknown_command_panics :
    tryFromResp (.array [.bulkString (strBytes "FLUSHALL")]) =
      .error .panicked :=
  rfl

/-- C8: a frame `Array ["WAIT", numreplicas, timeout]` with `numreplicas`
the decimal rendering of an i32 value and `timeout` that of a u64 value
parses into the `wait` command variant with exactly those values
(the parsing arm is spec-modelled, see `parseWaitArm`). -/
theorem c8_wait_parses (k : Int) (t : Nat) (h1 : -(2 ^ 31 : Int) ≤ k)
    (h2 : k < 2 ^ 31) (h3 : t < 2 ^ 64) :
    tryFromResp (.array [.bulkString (strBytes "WAIT"),
        .bulkString (intToBytes k), .bulkString (natToBytes t)]) =
      .ok (.wait k t) := by
  have hstep : ∀ arr : List Resp,
      tryFromResp (.array (.bulkString (strBytes "WAIT") :: arr)) =
        parseWaitArm (.bulkString (strBytes "WAIT") :: arr) := fun _ => rfl
  have hi32 : parse_i32 (intToBytes k) = some k :=
    parseIntB_intToBytes (2 ^ 31) k (by exact_mod_cast h1)
      (by exact_mod_cast h2)
  have hu64 : parse_u64 (natToBytes t) = some t := parseUIntB_natToBytes h3
  rw [hstep]
  simp [parseWaitArm, hi32, hu64]

/-- C8 witness: `WAIT 2 500` parses to `wait 2 500`. -/
theorem c8_wait_parses_witness :
    (-(2 ^ 31 : Int) ≤ 2 ∧ (2 : Int) < 2 ^ 31 ∧ (500 : Nat) < 2 ^ 64) ∧
    tryFromResp (.array [.bulkString (strBytes "WAIT"),
        .bulkString (intToBytes 2), .bulkString (natToBytes 500)]) =
      .ok (.wait 2 500) :=
  ⟨⟨by decide, by decide, by decide⟩,
   c8_wait_parses 2 500 (by decide) (by decide) (by decide)⟩

/-- C9: for an entry written at time `t` (with `t ≤ now` on a monotone
clock), GET returns the stored value iff the entry has no expiry or
`now - t < T`; whenever `T ≤ now - t` the entry is observationally absent
and GET returns NullBulk (the entry is merely filtered, not removed). -/
theorem c9_get_lazy_expiry (redis_map : RedisMap) (key : List Nat) (v : Value)
    (now : Nat) (hget : mapGet key redis_map = some v)
    (hclock : v.timestamp ≤ now) :
    (handleCommandGet key redis_map now = .bulkString v.value ↔
      (v.expire = none ∨ ∃ T, v.expire = some T ∧ now - v.timestamp < T)) ∧
    (∀ T, v.expire = some T → T ≤ now - v.timestamp →
      handleCommandGet key redis_map now = .nullBulkString) := by
  cases hv : v.expire with
  | none =>
    constructor
    · simp [handleCommandGet, hget, getFilter, hv]
    · intro T hT
      exact absurd hT (by simp)
  | some T =>
    have hdur : durationSince now v.timestamp = some (now - v.timestamp) := by
      simp [durationSince, hclock]
    by_cases hlt : now - v.timestamp < T
    · constructor
      · simp only [handleCommandGet, hget, getFilter, hv, hdur]
        simp [hlt]
      · intro T' hT' hle
        injection hT' with hTT
        exact absurd hle (by omega)
    · constructor
      · simp only [handleCommandGet, hget, getFilter, hv, hdur]
        simp [hlt]
      · intro T' hT' hle
        simp only [handleCommandGet, hget, getFilter, hv, hdur]
        simp [hlt]

/-- C9 witness: the theorem applied to a concrete entry with a 100 ms ttl
written at t = 5, read at now = 50 (alive) — and, via the second
conjunct, read at now = 200 (observationally absent). -/
theorem c9_get_lazy_expiry_witness :
    mapGet [107] [([107], ⟨[118], some 100, 5⟩)] = some ⟨[118], some 100, 5⟩ ∧
    (5 : Nat) ≤ 50 ∧
    handleCommandGet [107] [([107], ⟨[118], some 100, 5⟩)] 50 =
      .bulkString [118] ∧
    handleCommandGet [107] [([107], ⟨[118], some 100, 5⟩)] 200 =
      .nullBulkString :=
  ⟨rfl, by decide,
   (c9_get_lazy_expiry [([107], ⟨[118], some 100, 5⟩)] [107]
       ⟨[118], some 100, 5⟩ 50 rfl (by decide)).1.mpr
     (Or.inr ⟨100, rfl, by decide⟩),
   (c9_get_lazy_expiry [([107], ⟨[118], some 100, 5⟩)] [107]
       ⟨[118], some 100, 5⟩ 200 rfl (by decide)).2 100 rfl (by decide)⟩

/-- C10: the two encoders agree byte for byte: the UTF-8 bytes of
`encode_to_string(v)` equal `encode_to_bytes(v)` for every frame value; in
particular the BulkString length prefix (`String::len`, a byte count) and
the payload bytes coincide in both encoders. -/
theorem c10_encoders_agree (v : Resp) :
    encode_to_string v = encode_to_bytes v :=
  (enc_agree_aux (respSize v)).1 v le_rfl
